import Mathlib

/-!
Verification development for the lambda_jwt_router repository.

The Go source is shallowly embedded: Go maps (map[string]string and
map[string][]string) become association lists over String keys, Go int
becomes Int, Go errors become an inductive GoError, the opaque
interface value passed to json.Marshal becomes an inductive GoValue
that either serializes to a given string or fails, and the process-wide
globals (the ExposeServerErrors flag and the three CORS environment
variables) become explicit parameters threaded through the functions
that read them.

The repository ships two snapshots of the lmw middleware package:
the file src/lmw/lmw.go and a second copy inside src/unnamed/part_000.
They differ in LogRequestMW and InjectLambdaContextMW, so both versions
are embedded, in the namespaces Lmw (the src/lmw/lmw.go file) and LmwU
(the src/unnamed/part_000 copy).
-/

namespace LJR

/-- Generic lookup in an association list, modelling a read from a Go map.
The first binding for the key wins. -/
def lookupL {α : Type} : List (String × α) → String → Option α
  | [], _ => none
  | (k0, v0) :: rest, k => if k0 = k then some v0 else lookupL rest k

/-- Generic update of an association list, modelling a Go map assignment
m[k] = v: the existing binding for the key is overwritten in place,
otherwise the binding is appended. -/
def setL {α : Type} : List (String × α) → String → α → List (String × α)
  | [], k, v => [(k, v)]
  | (k0, v0) :: rest, k, v => if k0 = k then (k, v) :: rest else (k0, v0) :: setL rest k v

/-- Keys of an association list. -/
def keysL {α : Type} (m : List (String × α)) : List String := m.map Prod.fst

/-- Go len on a string counts bytes, embedded via the UTF-8 byte size. -/
def goLen (s : String) : Nat := s.utf8ByteSize

/-- An opaque Go value handed to json.Marshal: either it serializes to the
given JSON string, or serialization fails (for example a channel or
function value). -/
inductive GoValue where
  | jsonable (s : String)
  | unjsonable
deriving DecidableEq, Repr

/-- Embedding of json.Marshal on an opaque value. -/
def jsonMarshal : GoValue → Option String
  | .jsonable s => some s
  | .unjsonable => none

/-- A Go error value: either an lres.HTTPError carried behind the error
interface (recoverable via errors.As), or any other error exposing only
its message string. -/
inductive GoError where
  | httpError (status : Int) (message : String)
  | generic (message : String)
deriving DecidableEq, Repr

/-- Embedding of the Error() method: lres.HTTPError formats itself as
fmt.Sprintf("error %d: %s", status, message), any other error returns
its message. -/
def errString : GoError → String
  | .httpError s m => "error " ++ toString s ++ ": " ++ m
  | .generic m => m

/-- The message carried by an error: the Message field for an
lres.HTTPError, the message string otherwise. -/
def goErrMessage : GoError → String
  | .httpError _ m => m
  | .generic m => m

/-- The lres.HTTPError struct: status code plus message, serialized with
the JSON field tags status and message. -/
structure HTTPError where
  Status : Int
  Message : String
deriving DecidableEq, Repr

/-- Escape of one character inside a JSON string, following the Go
encoding/json encoder (HTML escaping on by default). -/
def jsonEscapeChar (c : Char) : String :=
  if c = '"' then "\\\""
  else if c = '\\' then "\\\\"
  else if c = '\n' then "\\n"
  else if c = '\r' then "\\r"
  else if c = '\t' then "\\t"
  else if c = '<' then "\\u003c"
  else if c = '>' then "\\u003e"
  else if c = '&' then "\\u0026"
  else if c.toNat < 32 then "\\u00" ++ (if c.toNat < 16 then "0" else "1") ++ String.singleton (Char.ofNat (if c.toNat % 16 < 10 then 48 + c.toNat % 16 else 87 + c.toNat % 16))
  else String.singleton c

/-- Escape of a whole JSON string body. -/
def jsonEscape (s : String) : String :=
  String.join (s.toList.map jsonEscapeChar)

/-- Embedding of json.Marshal on an lres.HTTPError value: the wire format
is a JSON object with the keys status and message. -/
def marshalHTTPError (h : HTTPError) : String :=
  "\x7b\"status\":" ++ toString h.Status ++ ",\"message\":\"" ++ jsonEscape h.Message ++ "\"\x7d"

/-- Embedding of net/http.StatusText: the standard reason phrase for a
status code, or the empty string for an unknown code. -/
def statusText : Int → String
  | 100 => "Continue"
  | 101 => "Switching Protocols"
  | 102 => "Processing"
  | 103 => "Early Hints"
  | 200 => "OK"
  | 201 => "Created"
  | 202 => "Accepted"
  | 203 => "Non-Authoritative Information"
  | 204 => "No Content"
  | 205 => "Reset Content"
  | 206 => "Partial Content"
  | 207 => "Multi-Status"
  | 208 => "Already Reported"
  | 226 => "IM Used"
  | 300 => "Multiple Choices"
  | 301 => "Moved Permanently"
  | 302 => "Found"
  | 303 => "See Other"
  | 304 => "Not Modified"
  | 305 => "Use Proxy"
  | 307 => "Temporary Redirect"
  | 308 => "Permanent Redirect"
  | 400 => "Bad Request"
  | 401 => "Unauthorized"
  | 402 => "Payment Required"
  | 403 => "Forbidden"
  | 404 => "Not Found"
  | 405 => "Method Not Allowed"
  | 406 => "Not Acceptable"
  | 407 => "Proxy Authentication Required"
  | 408 => "Request Timeout"
  | 409 => "Conflict"
  | 410 => "Gone"
  | 411 => "Length Required"
  | 412 => "Precondition Failed"
  | 413 => "Request Entity Too Large"
  | 414 => "Request URI Too Long"
  | 415 => "Unsupported Media Type"
  | 416 => "Requested Range Not Satisfiable"
  | 417 => "Expectation Failed"
  | 418 => "I\x27m a teapot"
  | 421 => "Misdirected Request"
  | 422 => "Unprocessable Entity"
  | 423 => "Locked"
  | 424 => "Failed Dependency"
  | 425 => "Too Early"
  | 426 => "Upgrade Required"
  | 428 => "Precondition Required"
  | 429 => "Too Many Requests"
  | 431 => "Request Header Fields Too Large"
  | 451 => "Unavailable For Legal Reasons"
  | 500 => "Internal Server Error"
  | 501 => "Not Implemented"
  | 502 => "Bad Gateway"
  | 503 => "Service Unavailable"
  | 504 => "Gateway Timeout"
  | 505 => "HTTP Version Not Supported"
  | 506 => "Variant Also Negotiates"
  | 507 => "Insufficient Storage"
  | 508 => "Loop Detected"
  | 510 => "Not Extended"
  | 511 => "Network Authentication Required"
  | _ => ""

/-- The three CORS environment variables, read by addCors at
response-build time. -/
structure CorsEnv where
  corsHeaders : String
  corsMethods : String
  corsOrigins : String
deriving DecidableEq, Repr

/-- The events.APIGatewayProxyResponse shape. -/
structure Response where
  StatusCode : Int
  Headers : List (String × String)
  MultiValueHeaders : List (String × List String) := []
  Body : String
  IsBase64Encoded : Bool
deriving DecidableEq, Repr

def ContentTypeKey : String := "Content-Type"
def CORSHeadersHeaderKey : String := "Access-Control-Allow-Headers"
def CORSMethodsHeaderKey : String := "Access-Control-Allow-Methods"
def CORSOriginHeaderKey : String := "Access-Control-Allow-Origin"

namespace Lres

/-- Embedding of lres.addCors (src/unnamed/part_002 lines 152-170): for
each of the three CORS environment values that is non-empty, the
corresponding response header is assigned. -/
def addCors (env : CorsEnv) (headers : List (String × String)) : List (String × String) :=
  let h1 := if env.corsHeaders ≠ "" then setL headers CORSHeadersHeaderKey env.corsHeaders else headers
  let h2 := if env.corsMethods ≠ "" then setL h1 CORSMethodsHeaderKey env.corsMethods else h1
  if env.corsOrigins ≠ "" then setL h2 CORSOriginHeaderKey env.corsOrigins else h2

/-- Embedding of lres.Custom (src/unnamed/part_002 lines 25-47). A nil
headers map is modelled as none. On serialization failure the status is
overridden to 500 and the body is the fixed literal with the key code. -/
def Custom (env : CorsEnv) (httpStatus : Int) (headers : Option (List (String × String))) (data : GoValue) : Response × Option GoError :=
  let mres := jsonMarshal data
  let httpStatus := match mres with
    | none => 500
    | some _ => httpStatus
  let b := match mres with
    | none => "\x7b\"code\":500,\"message\":\"the server has encountered an unexpected error\"\x7d"
    | some s => s
  let headers := match headers with
    | none => []
    | some m => m
  let headers := setL headers ContentTypeKey "application/json; charset=UTF-8"
  ({ StatusCode := httpStatus
     IsBase64Encoded := false
     Headers := addCors env headers
     Body := b }, none)

/-- Embedding of lres.Empty (src/unnamed/part_002 lines 50-52): json.Marshal
of the empty struct yields the two-character empty JSON object. -/
def Empty (env : CorsEnv) : Response × Option GoError :=
  Custom env 200 none (.jsonable "\x7b\x7d")

/-- The errors.As step of lres.Error (src/unnamed/part_002 lines 63-69):
an embedded HTTPError is recovered as is, any other error is wrapped as
a 500 with its message. -/
def errAsHTTPError : GoError → HTTPError
  | .httpError s m => { Status := s, Message := m }
  | .generic m => { Status := 500, Message := m }

/-- The HTTPError computed inside lres.Error (src/unnamed/part_002 lines
62-73): after the errors.As recovery, when the status is at least 500
and the ExposeServerErrors flag is false, the message is replaced by the
standard reason phrase. -/
def resolveError (expose : Bool) (err : GoError) : HTTPError :=
  let httpErr : HTTPError := errAsHTTPError err
  if 500 ≤ httpErr.Status ∧ expose = false then
    { httpErr with Message := statusText httpErr.Status }
  else
    httpErr

/-- Embedding of lres.Error (src/unnamed/part_002 lines 62-76): the
resolved HTTPError is handed to Custom, whose json.Marshal call on it
always succeeds and produces the status/message wire object. -/
def Error (expose : Bool) (env : CorsEnv) (err : GoError) : Response × Option GoError :=
  let h := resolveError expose err
  Custom env h.Status none (.jsonable (marshalHTTPError h))

/-- The HTTPError computed inside lres.StatusAndError (src/unnamed/part_002
lines 118-127): the message starts as err.Error() and is replaced by the
standard reason phrase when the status is at least 500 and the
ExposeServerErrors flag is false. -/
def resolveStatusAndError (expose : Bool) (httpStatus : Int) (err : GoError) : HTTPError :=
  let httpErr : HTTPError := { Status := httpStatus, Message := errString err }
  if 500 ≤ httpErr.Status ∧ expose = false then
    { httpErr with Message := statusText httpErr.Status }
  else
    httpErr

/-- Embedding of lres.StatusAndError (src/unnamed/part_002 lines 118-130). -/
def StatusAndError (expose : Bool) (env : CorsEnv) (httpStatus : Int) (err : GoError) : Response × Option GoError :=
  let h := resolveStatusAndError expose httpStatus err
  Custom env h.Status none (.jsonable (marshalHTTPError h))

/-- Embedding of lres.Success (src/unnamed/part_002 lines 135-137). -/
def Success (env : CorsEnv) (data : GoValue) : Response × Option GoError :=
  Custom env 200 none data

/-- Go string(bytes) on a byte slice, modelled as the byte-for-byte
character string. -/
def goStringOfBytes (bs : List UInt8) : String :=
  String.mk (bs.map (fun b => Char.ofNat b.toNat))

/-- The standard base64 alphabet. -/
def base64Table : List Char :=
  "ABCDEFGHIJKLMNOPQRSTUVWXYZabcdefghijklmnopqrstuvwxyz0123456789+/".toList

/-- One base64 digit. -/
def b64Char (n : Nat) : Char := (base64Table.getD n 'A')

/-- Embedding of encoding/base64 StdEncoding.EncodeToString. -/
def base64Encode : List UInt8 → String
  | [] => ""
  | [b1] =>
    String.mk [b64Char (b1.toNat / 4), b64Char (b1.toNat % 4 * 16)] ++ "=="
  | [b1, b2] =>
    String.mk [b64Char (b1.toNat / 4), b64Char (b1.toNat % 4 * 16 + b2.toNat / 16), b64Char (b2.toNat % 16 * 4)] ++ "="
  | b1 :: b2 :: b3 :: rest =>
    String.mk [b64Char (b1.toNat / 4), b64Char (b1.toNat % 4 * 16 + b2.toNat / 16), b64Char (b2.toNat % 16 * 4 + b3.toNat / 64), b64Char (b3.toNat % 64)] ++ base64Encode rest

/-- Embedding of lres.File (src/unnamed/part_002 lines 80-95). -/
def File (env : CorsEnv) (contentType : String) (headers : Option (List (String × String))) (fileBytes : List UInt8) : Response × Option GoError :=
  let headers := match headers with
    | none => [(ContentTypeKey, contentType)]
    | some m => setL m ContentTypeKey contentType
  ({ StatusCode := 200
     Headers := addCors env headers
     Body := goStringOfBytes fileBytes
     IsBase64Encoded := false }, none)

/-- Embedding of lres.FileB64 (src/unnamed/part_002 lines 99-114). -/
def FileB64 (env : CorsEnv) (contentType : String) (headers : Option (List (String × String))) (fileBytes : List UInt8) : Response × Option GoError :=
  let headers := match headers with
    | none => [(ContentTypeKey, contentType)]
    | some m => setL m ContentTypeKey contentType
  ({ StatusCode := 200
     Headers := addCors env headers
     Body := base64Encode fileBytes
     IsBase64Encoded := true }, none)

end Lres

/-- Modelled from the spec: the inbound event body as consumed by
lreq.UnmarshalReq. The lreq package is not under src, so the parse
outcome is modelled: a body is empty, a well-formed JSON object of
string fields, or malformed text on which unmarshalling fails. -/
inductive ReqBody where
  | empty
  | jsonFields (fields : List (String × String))
  | malformed (raw : String)
deriving DecidableEq, Repr

/-- The request metadata carried by the gateway event. -/
structure RequestContext where
  RequestID : String := ""
deriving DecidableEq, Repr

/-- The events.APIGatewayProxyRequest shape. -/
structure Request where
  Body : ReqBody := .empty
  HTTPMethod : String := ""
  Headers : List (String × String) := []
  IsBase64Encoded : Bool := false
  MultiValueHeaders : List (String × List String) := []
  MultiValueQueryStringParameters : List (String × List String) := []
  Path : String := ""
  PathParameters : List (String × String) := []
  QueryStringParameters : List (String × String) := []
  RequestContext : RequestContext := {}
deriving DecidableEq, Repr

namespace Lcom

/-- Embedding of lcom.LambdaParams (src/unnamed/part_001 lines 148-157). -/
structure LambdaParams where
  IDPath : String := ""
  IDQuery : String := ""
  UserIDBody : String := ""
  UserIDPath : String := ""
  UserIDQuery : String := ""
  UserTypeBody : String := ""
  UserTypePath : String := ""
  UserTypeQuery : String := ""
deriving DecidableEq, Repr

/-- The loop inside lcom.chooseLongest (src/unnamed/part_001 lines
180-188): a range loop over the candidates keeping the index and length
of the first strictly longest string seen so far. -/
def chooseLongestLoop : List String → Nat → Int → Int → Int × Int
  | [], _, longestIndex, longestLength => (longestIndex, longestLength)
  | currentString :: rest, currentIndex, longestIndex, longestLength =>
    let currentLength : Int := (goLen currentString : Int)
    if currentLength > longestLength then
      chooseLongestLoop rest (currentIndex + 1) (currentIndex : Int) currentLength
    else
      chooseLongestLoop rest (currentIndex + 1) longestIndex longestLength

/-- Embedding of lcom.chooseLongest (src/unnamed/part_001 lines 175-191). -/
def chooseLongest (s1 : List String) : String :=
  if s1.length < 1 then ""
  else
    let r := chooseLongestLoop s1 0 (-1) (-1)
    s1.getD r.1.toNat ""

/-- Embedding of LambdaParams.GetID (src/unnamed/part_001 lines 159-161). -/
def GetID (lp : LambdaParams) : String := chooseLongest [lp.IDPath, lp.IDQuery]

/-- Embedding of LambdaParams.GetUserID (src/unnamed/part_001 lines 163-165). -/
def GetUserID (lp : LambdaParams) : String := chooseLongest [lp.UserIDPath, lp.UserIDQuery, lp.UserIDBody]

/-- Embedding of LambdaParams.GetOwnerID (src/unnamed/part_001 lines 167-169). -/
def GetOwnerID (lp : LambdaParams) : String := chooseLongest [GetID lp, GetUserID lp]

/-- Embedding of LambdaParams.GetUserType (src/unnamed/part_001 lines 171-173). -/
def GetUserType (lp : LambdaParams) : String := chooseLongest [lp.UserTypePath, lp.UserTypeQuery, lp.UserTypeBody]

end Lcom

/-- Modelled from the spec: lreq.UnmarshalReq is not under src. Per the
spec it fills LambdaParams from the lambda path/query tags and the JSON
body fields, and it fails when the body is empty or malformed so that
unmarshalling the request into LambdaParams cannot succeed. -/
def UnmarshalReq (req : Request) : Except GoError Lcom.LambdaParams :=
  match req.Body with
  | .empty => .error (.generic "unexpected end of JSON input")
  | .malformed _ => .error (.generic "invalid character in request body")
  | .jsonFields fields => .ok {
      IDPath := (lookupL req.PathParameters "id").getD ""
      IDQuery := (lookupL req.QueryStringParameters "id").getD ""
      UserIDBody := (lookupL fields "userId").getD ""
      UserIDPath := (lookupL req.PathParameters "userId").getD ""
      UserIDQuery := (lookupL req.QueryStringParameters "userId").getD ""
      UserTypeBody := (lookupL fields "userType").getD ""
      UserTypePath := (lookupL req.PathParameters "userType").getD ""
      UserTypeQuery := (lookupL req.QueryStringParameters "userType").getD "" }

/-- A value stored in the request context: Go stores heterogeneous values
behind the empty interface, so the possible shapes are enumerated. The
vNil constructor models a nil interface value. -/
inductive CtxVal where
  | vNil
  | vStr (s : String)
  | vInt (n : Int)
  | vStrMap (m : List (String × String))
  | vMultiMap (m : List (String × List String))
deriving DecidableEq, Repr

/-- The request context, modelled as the stack of context.WithValue
wrappers: the most recent binding for a key shadows older ones. -/
abbrev Ctx := List (String × CtxVal)

/-- Embedding of context.WithValue. -/
def withValue (ctx : Ctx) (key : String) (val : CtxVal) : Ctx := (key, val) :: ctx

/-- Embedding of context.Value: the innermost binding wins. -/
def lookupCtx (ctx : Ctx) (key : String) : Option CtxVal := lookupL ctx key

/-- The lcom.Handler type. -/
abbrev Handler := Ctx → Request → Response × Option GoError

/-- Modelled from the spec: the lambda context key constants live in the
missing lcom files; the pathParams, queryParams and multiParams values
are pinned by the log assertions in src/lmw/lmw_test.go, the rest are
stable distinct names. -/
def LambdaContextIDKey : String := "id"

/-- Modelled from the spec: lambda context key for the HTTP method. -/
def LambdaContextMethodKey : String := "method"

/-- Modelled from the spec: lambda context key for the multi-value query
parameters. -/
def LambdaContextMultiParamsKey : String := "multiParams"

/-- Modelled from the spec: lambda context key for the request path. -/
def LambdaContextPathKey : String := "path"

/-- Modelled from the spec: lambda context key for the path parameters. -/
def LambdaContextPathParamsKey : String := "pathParams"

/-- Modelled from the spec: lambda context key for the query parameters. -/
def LambdaContextQueryParamsKey : String := "queryParams"

/-- Modelled from the spec: lambda context key for the request id. -/
def LambdaContextRequestIDKey : String := "requestId"

/-- Modelled from the spec: lambda context key for the resolved user id. -/
def LambdaContextUserIDKey : String := "userId"

/-- Modelled from the spec: lambda context key for the resolved user type. -/
def LambdaContextUserTypeKey : String := "userType"

/-- Modelled from the spec: JWT claim context key constants from the
missing lcom files, using the standard claim names. -/
def JWTClaimAudienceKey : String := "aud"

/-- Modelled from the spec: claim key for the email field. -/
def JWTClaimEmailKey : String := "email"

/-- Modelled from the spec: claim key for the expiry timestamp. -/
def JWTClaimExpiresAtKey : String := "exp"

/-- Modelled from the spec: claim key for the first name field. -/
def JWTClaimFirstNameKey : String := "firstName"

/-- Modelled from the spec: claim key for the full name field. -/
def JWTClaimFullNameKey : String := "fullName"

/-- Modelled from the spec: claim key for the token id. -/
def JWTClaimIDKey : String := "jti"

/-- Modelled from the spec: claim key for the issued-at timestamp. -/
def JWTClaimIssuedAtKey : String := "iat"

/-- Modelled from the spec: claim key for the issuer. -/
def JWTClaimIssuerKey : String := "iss"

/-- Modelled from the spec: claim key for the level field. -/
def JWTClaimLevelKey : String := "level"

/-- Modelled from the spec: claim key for the not-before timestamp. -/
def JWTClaimNotBeforeKey : String := "nbf"

/-- Modelled from the spec: claim key for the subject. -/
def JWTClaimSubjectKey : String := "sub"

/-- Modelled from the spec: claim key for the user type field. -/
def JWTClaimUserTypeKey : String := "userType"

/-- A value inside a decoded claims mapping: string or integer. -/
inductive ClaimVal where
  | cStr (s : String)
  | cInt (n : Int)
deriving DecidableEq, Repr

/-- A generic claim-name-to-value mapping, the jwt.MapClaims shape. -/
abbrev MapClaims := List (String × ClaimVal)

/-- The jwt.StandardClaims shape as used by DecodeStandardMW. -/
structure StandardClaims where
  Audience : String := ""
  ExpiresAt : Int := 0
  Id : String := ""
  IssuedAt : Int := 0
  Issuer : String := ""
  NotBefore : Int := 0
  Subject : String := ""
deriving DecidableEq, Repr

/-- The ljwt.ExpandedClaims shape as used by DecodeExpandedMW. -/
structure ExpandedClaims where
  Audience : String := ""
  Email : String := ""
  ExpiresAt : Int := 0
  FirstName : String := ""
  FullName : String := ""
  ID : String := ""
  IssuedAt : Int := 0
  Issuer : String := ""
  Level : String := ""
  NotBefore : Int := 0
  Subject : String := ""
  UserType : String := ""
deriving DecidableEq, Repr

/-- Modelled from the spec: the fixed error value lcom.ErrNoAuthorizationHeader,
whose text is the fixed no-authorization-header message asserted by the
tests in src/lmw/lmw_test.go. -/
def ErrNoAuthorizationHeader : GoError := .generic "no authorization header"

/-- Modelled from the spec: ljwt.ExtractJWT is not under src. Per the spec
it fails with the fixed no-authorization-header error and HTTP 400 when
the Authorization header is absent or does not carry the Bearer scheme;
token verification itself is an external capability, passed here as the
verify parameter, which reports its own HTTP status on failure. -/
def ExtractJWT (verify : String → Except (Int × GoError) MapClaims) (headers : List (String × String)) : Except (Int × GoError) MapClaims :=
  match lookupL headers "Authorization" with
  | none => .error (400, ErrNoAuthorizationHeader)
  | some authHeader =>
    if authHeader.startsWith "Bearer " then
      verify (authHeader.drop 7)
    else
      .error (400, ErrNoAuthorizationHeader)

/-- Modelled from the spec: structural read of a string claim field; a
present field of the wrong type is a claim-shape error, an absent field
decodes to the zero value. -/
def getStrClaim (m : MapClaims) (k : String) : Except GoError String :=
  match lookupL m k with
  | none => .ok ""
  | some (.cStr s) => .ok s
  | some (.cInt _) => .error (.generic ("unable to decode claim field " ++ k))

/-- Modelled from the spec: structural read of an integer claim field. -/
def getIntClaim (m : MapClaims) (k : String) : Except GoError Int :=
  match lookupL m k with
  | none => .ok 0
  | some (.cInt n) => .ok n
  | some (.cStr _) => .error (.generic ("unable to decode claim field " ++ k))

/-- Modelled from the spec: ljwt.ExtractStandard binds the recognized
fields of a verified claims mapping into jwt.StandardClaims, failing
when a field has the wrong type. -/
def ExtractStandard (m : MapClaims) : Except GoError StandardClaims := do
  let aud ← getStrClaim m JWTClaimAudienceKey
  let exp ← getIntClaim m JWTClaimExpiresAtKey
  let jti ← getStrClaim m JWTClaimIDKey
  let iat ← getIntClaim m JWTClaimIssuedAtKey
  let iss ← getStrClaim m JWTClaimIssuerKey
  let nbf ← getIntClaim m JWTClaimNotBeforeKey
  let sub ← getStrClaim m JWTClaimSubjectKey
  return { Audience := aud, ExpiresAt := exp, Id := jti, IssuedAt := iat, Issuer := iss, NotBefore := nbf, Subject := sub }

/-- Modelled from the spec: ljwt.ExtractCustom binds the recognized fields
of a verified claims mapping into ljwt.ExpandedClaims. -/
def ExtractCustom (m : MapClaims) : Except GoError ExpandedClaims := do
  let aud ← getStrClaim m JWTClaimAudienceKey
  let email ← getStrClaim m JWTClaimEmailKey
  let exp ← getIntClaim m JWTClaimExpiresAtKey
  let firstName ← getStrClaim m JWTClaimFirstNameKey
  let fullName ← getStrClaim m JWTClaimFullNameKey
  let jti ← getStrClaim m JWTClaimIDKey
  let iat ← getIntClaim m JWTClaimIssuedAtKey
  let iss ← getStrClaim m JWTClaimIssuerKey
  let level ← getStrClaim m JWTClaimLevelKey
  let nbf ← getIntClaim m JWTClaimNotBeforeKey
  let sub ← getStrClaim m JWTClaimSubjectKey
  let userType ← getStrClaim m JWTClaimUserTypeKey
  return { Audience := aud, Email := email, ExpiresAt := exp, FirstName := firstName, FullName := fullName, ID := jti, IssuedAt := iat, Issuer := iss, Level := level, NotBefore := nbf, Subject := sub, UserType := userType }

namespace Lmw

/-- The log line computed by LogRequestMW in src/lmw/lmw.go lines 21-36
and 54: format is level, method, path, code and the optional error
suffix; an error forces level ERR and code 500, otherwise a status of
400 or more forces level ERR. -/
def logRequestLine (req : Request) (res : Response) (err : Option GoError) : String :=
  let level := match err with
    | some _ => "ERR"
    | none => if 400 ≤ res.StatusCode then "ERR" else "INF"
  let code : Int := match err with
    | some _ => 500
    | none => res.StatusCode
  let extra := match err with
    | some e => " " ++ errString e
    | none => ""
  "[" ++ level ++ "] [" ++ req.HTTPMethod ++ " " ++ req.Path ++ "] [" ++ toString code ++ "]" ++ extra

/-- Embedding of lmw.LogRequestMW from src/lmw/lmw.go lines 16-58: the
inner handler runs first, a log line is derived from its outcome, and
the response and error are returned as produced. -/
def LogRequestMW (next : Handler) : Handler := fun ctx req =>
  let r := next ctx req
  let _line := logRequestLine req r.1 r.2
  r

/-- Embedding of lmw.InjectLambdaContextMW from src/lmw/lmw.go lines
62-86: an unmarshal failure is returned as an error response via
lres.ErrorRes, otherwise nine values are added to the context and the
next handler is invoked. -/
def InjectLambdaContextMW (expose : Bool) (env : CorsEnv) (next : Handler) : Handler := fun ctx req =>
  match UnmarshalReq req with
  | .error err => Lres.Error expose env err
  | .ok lambdaParams =>
    let ctx := withValue ctx LambdaContextIDKey (.vStr (Lcom.GetID lambdaParams))
    let ctx := withValue ctx LambdaContextMethodKey (.vStr req.HTTPMethod)
    let ctx := withValue ctx LambdaContextMultiParamsKey (.vMultiMap req.MultiValueQueryStringParameters)
    let ctx := withValue ctx LambdaContextPathKey (.vStr req.Path)
    let ctx := withValue ctx LambdaContextPathParamsKey (.vStrMap req.PathParameters)
    let ctx := withValue ctx LambdaContextQueryParamsKey (.vStrMap req.QueryStringParameters)
    let ctx := withValue ctx LambdaContextRequestIDKey (.vStr req.RequestContext.RequestID)
    let ctx := withValue ctx LambdaContextUserIDKey (.vStr (Lcom.GetUserID lambdaParams))
    let ctx := withValue ctx LambdaContextUserTypeKey (.vStr (Lcom.GetUserType lambdaParams))
    next ctx req

/-- Embedding of lmw.AllowOptionsMW from src/lmw/lmw.go lines 90-97: it
takes no next handler and returns lres.EmptyRes for every request. -/
def AllowOptionsMW (env : CorsEnv) : Handler := fun _ctx _req =>
  Lres.Empty env

/-- Embedding of lmw.DecodeStandardMW from src/lmw/lmw.go lines 104-130. -/
def DecodeStandardMW (expose : Bool) (env : CorsEnv) (verify : String → Except (Int × GoError) MapClaims) (next : Handler) : Handler := fun ctx req =>
  match ExtractJWT verify req.Headers with
  | .error (httpStatus, err) => Lres.StatusAndError expose env httpStatus err
  | .ok mapClaims =>
    match ExtractStandard mapClaims with
    | .error err => Lres.StatusAndError expose env 500 err
    | .ok standardClaims =>
      let ctx := withValue ctx JWTClaimAudienceKey (.vStr standardClaims.Audience)
      let ctx := withValue ctx JWTClaimExpiresAtKey (.vInt standardClaims.ExpiresAt)
      let ctx := withValue ctx JWTClaimIDKey (.vStr standardClaims.Id)
      let ctx := withValue ctx JWTClaimIssuedAtKey (.vInt standardClaims.IssuedAt)
      let ctx := withValue ctx JWTClaimIssuerKey (.vStr standardClaims.Issuer)
      let ctx := withValue ctx JWTClaimNotBeforeKey (.vInt standardClaims.NotBefore)
      let ctx := withValue ctx JWTClaimSubjectKey (.vStr standardClaims.Subject)
      next ctx req

/-- Embedding of lmw.DecodeExpandedMW from src/lmw/lmw.go lines 137-168. -/
def DecodeExpandedMW (expose : Bool) (env : CorsEnv) (verify : String → Except (Int × GoError) MapClaims) (next : Handler) : Handler := fun ctx req =>
  match ExtractJWT verify req.Headers with
  | .error (httpStatus, err) => Lres.StatusAndError expose env httpStatus err
  | .ok mapClaims =>
    match ExtractCustom mapClaims with
    | .error err => Lres.StatusAndError expose env 500 err
    | .ok extendedClaims =>
      let ctx := withValue ctx JWTClaimAudienceKey (.vStr extendedClaims.Audience)
      let ctx := withValue ctx JWTClaimEmailKey (.vStr extendedClaims.Email)
      let ctx := withValue ctx JWTClaimExpiresAtKey (.vInt extendedClaims.ExpiresAt)
      let ctx := withValue ctx JWTClaimFirstNameKey (.vStr extendedClaims.FirstName)
      let ctx := withValue ctx JWTClaimFullNameKey (.vStr extendedClaims.FullName)
      let ctx := withValue ctx JWTClaimIDKey (.vStr extendedClaims.ID)
      let ctx := withValue ctx JWTClaimIssuedAtKey (.vInt extendedClaims.IssuedAt)
      let ctx := withValue ctx JWTClaimIssuerKey (.vStr extendedClaims.Issuer)
      let ctx := withValue ctx JWTClaimLevelKey (.vStr extendedClaims.Level)
      let ctx := withValue ctx JWTClaimNotBeforeKey (.vInt extendedClaims.NotBefore)
      let ctx := withValue ctx JWTClaimSubjectKey (.vStr extendedClaims.Subject)
      let ctx := withValue ctx JWTClaimUserTypeKey (.vStr extendedClaims.UserType)
      next ctx req

end Lmw

namespace LmwU

/-- The context keys enumerated at src/unnamed/part_000 lines 95-105. -/
def ctxVals : List String :=
  [LambdaContextIDKey, LambdaContextMethodKey, LambdaContextMultiParamsKey,
   LambdaContextPathKey, LambdaContextPathParamsKey, LambdaContextQueryParamsKey,
   LambdaContextRequestIDKey, LambdaContextUserIDKey, LambdaContextUserTypeKey]

/-- Embedding of logContextValues (src/unnamed/part_000 lines 113-132):
the observable log record is the list of context values present for the
enumerated keys. -/
def logContextValues (ctx : Ctx) (_res : Response) (vals : List String) : List (String × CtxVal) :=
  vals.filterMap (fun k => (lookupCtx ctx k).map (fun v => (k, v)))

/-- Embedding of the LogRequestMW copy at src/unnamed/part_000 lines
85-111: when the inner handler returns a non-nil error the response
status code is overwritten to 500 before logging and returning. -/
def LogRequestMW (next : Handler) : Handler := fun ctx req =>
  let r := next ctx req
  let res := match r.2 with
    | some _ => { r.1 with StatusCode := 500 }
    | none => r.1
  let _logged := logContextValues ctx res ctxVals
  (res, r.2)

/-- Embedding of addToContext (src/unnamed/part_000 lines 163-180): nil
values are skipped, string values are added only when non-empty, every
other value is added. -/
def addToContext (ctx : Ctx) : List (String × CtxVal) → Ctx
  | [] => ctx
  | (key, val) :: rest =>
    let ctx := match val with
      | .vNil => ctx
      | .vStr s => if s ≠ "" then withValue ctx key val else ctx
      | _ => withValue ctx key val
    addToContext ctx rest

/-- The vals map built by the InjectLambdaContextMW copy at
src/unnamed/part_000 lines 145-155; the unmarshal error is discarded,
leaving zero-valued params. -/
def injectVals (req : Request) : List (String × CtxVal) :=
  let lambdaParams := match UnmarshalReq req with
    | .ok lp => lp
    | .error _ => {}
  [ (LambdaContextIDKey, .vStr (Lcom.GetID lambdaParams)),
    (LambdaContextMethodKey, .vStr req.HTTPMethod),
    (LambdaContextMultiParamsKey, .vMultiMap req.MultiValueQueryStringParameters),
    (LambdaContextPathKey, .vStr req.Path),
    (LambdaContextPathParamsKey, .vStrMap req.PathParameters),
    (LambdaContextQueryParamsKey, .vStrMap req.QueryStringParameters),
    (LambdaContextRequestIDKey, .vStr req.RequestContext.RequestID),
    (LambdaContextUserIDKey, .vStr (Lcom.GetUserID lambdaParams)),
    (LambdaContextUserTypeKey, .vStr (Lcom.GetUserType lambdaParams)) ]

/-- Embedding of the InjectLambdaContextMW copy at src/unnamed/part_000
lines 136-161: the unmarshal error is swallowed and the next handler is
always invoked on the augmented context. -/
def InjectLambdaContextMW (next : Handler) : Handler := fun ctx req =>
  next (addToContext ctx (injectVals req)) req

/-- Embedding of the AllowOptionsMW copy at src/unnamed/part_000 lines
184-191, identical to the src/lmw/lmw.go one. -/
def AllowOptionsMW (env : CorsEnv) : Handler := fun _ctx _req =>
  Lres.Empty env

end LmwU

namespace Lrouter

/-- A native net/http request as seen by Router.ServeHTTP: header and
query maps are multi-valued. -/
structure HttpRequest where
  method : String := ""
  path : String := ""
  headers : List (String × List String) := []
  query : List (String × List String) := []
  body : ReqBody := .empty
deriving DecidableEq, Repr

/-- Embedding of convertMap (src/unnamed/part_001 lines 135-145): a key
is copied into the single-value map exactly when it has exactly one
value. -/
def convertMap : List (String × List String) → List (String × String)
  | [] => []
  | (key, value) :: rest =>
    if value.length = 1 then (key, value.getD 0 "") :: convertMap rest
    else convertMap rest

/-- The events.APIGatewayProxyRequest built by Router.ServeHTTP
(src/unnamed/part_001 lines 63-72): single-value maps come from
convertMap, the multi-value maps are passed through unchanged. -/
def serveHTTPEvent (r : HttpRequest) : Request :=
  { Body := r.body
    HTTPMethod := r.method
    Headers := convertMap r.headers
    IsBase64Encoded := false
    MultiValueHeaders := r.headers
    MultiValueQueryStringParameters := r.query
    Path := r.path
    QueryStringParameters := convertMap r.query }

end Lrouter

/-- CORS correctness of a produced header map against the header map the
caller supplied: every configured (non-empty) CORS value appears under
its header name, overwriting whatever was there, and every unconfigured
(empty) value leaves the lookup for its header name as it was in the
callers map. -/
def corsSpec (env : CorsEnv) (base : List (String × String)) (hs : List (String × String)) : Prop :=
  (env.corsHeaders ≠ "" → lookupL hs CORSHeadersHeaderKey = some env.corsHeaders) ∧
  (env.corsHeaders = "" → lookupL hs CORSHeadersHeaderKey = lookupL base CORSHeadersHeaderKey) ∧
  (env.corsMethods ≠ "" → lookupL hs CORSMethodsHeaderKey = some env.corsMethods) ∧
  (env.corsMethods = "" → lookupL hs CORSMethodsHeaderKey = lookupL base CORSMethodsHeaderKey) ∧
  (env.corsOrigins ≠ "" → lookupL hs CORSOriginHeaderKey = some env.corsOrigins) ∧
  (env.corsOrigins = "" → lookupL hs CORSOriginHeaderKey = lookupL base CORSOriginHeaderKey)

/-- A context value that is present and non-empty: not a nil interface
value and, when it is a string, not the empty string. -/
def ctxValOk (v : CtxVal) : Prop :=
  v ≠ .vNil ∧ ∀ s, v = .vStr s → s ≠ ""

section Lemmas

theorem lookupL_setL_self {α : Type} (m : List (String × α)) (k : String) (v : α) :
    lookupL (setL m k v) k = some v := by
  induction m with
  | nil => simp [setL, lookupL]
  | cons p rest ih =>
    obtain ⟨k0, v0⟩ := p
    by_cases h : k0 = k
    · simp [setL, h, lookupL]
    · simp [setL, h, lookupL, ih]

theorem lookupL_setL_other {α : Type} (m : List (String × α)) (k : String) (v : α) (k' : String) (h : k' ≠ k) :
    lookupL (setL m k v) k' = lookupL m k' := by
  induction m with
  | nil => simp [setL, lookupL, Ne.symm h]
  | cons p rest ih =>
    obtain ⟨k0, v0⟩ := p
    by_cases h0 : k0 = k
    · subst h0
      simp [setL, lookupL, Ne.symm h]
    · simp [setL, h0, lookupL, ih]

theorem lookupL_addCors_headersKey (env : CorsEnv) (hs : List (String × String)) :
    lookupL (Lres.addCors env hs) CORSHeadersHeaderKey =
      if env.corsHeaders = "" then lookupL hs CORSHeadersHeaderKey else some env.corsHeaders := by
  have hOH : CORSHeadersHeaderKey ≠ CORSOriginHeaderKey := by decide
  have hMH : CORSHeadersHeaderKey ≠ CORSMethodsHeaderKey := by decide
  unfold Lres.addCors
  by_cases h1 : env.corsHeaders = "" <;> by_cases h2 : env.corsMethods = "" <;>
    by_cases h3 : env.corsOrigins = "" <;>
      simp [h1, h2, h3, lookupL_setL_self,
        lookupL_setL_other _ _ _ _ hOH, lookupL_setL_other _ _ _ _ hMH]

theorem lookupL_addCors_methodsKey (env : CorsEnv) (hs : List (String × String)) :
    lookupL (Lres.addCors env hs) CORSMethodsHeaderKey =
      if env.corsMethods = "" then lookupL hs CORSMethodsHeaderKey else some env.corsMethods := by
  have hMO : CORSMethodsHeaderKey ≠ CORSOriginHeaderKey := by decide
  have hMH : CORSMethodsHeaderKey ≠ CORSHeadersHeaderKey := by decide
  unfold Lres.addCors
  by_cases h1 : env.corsHeaders = "" <;> by_cases h2 : env.corsMethods = "" <;>
    by_cases h3 : env.corsOrigins = "" <;>
      simp [h1, h2, h3, lookupL_setL_self,
        lookupL_setL_other _ _ _ _ hMO, lookupL_setL_other _ _ _ _ hMH]

theorem lookupL_addCors_originKey (env : CorsEnv) (hs : List (String × String)) :
    lookupL (Lres.addCors env hs) CORSOriginHeaderKey =
      if env.corsOrigins = "" then lookupL hs CORSOriginHeaderKey else some env.corsOrigins := by
  have hOH : CORSOriginHeaderKey ≠ CORSHeadersHeaderKey := by decide
  have hOM : CORSOriginHeaderKey ≠ CORSMethodsHeaderKey := by decide
  unfold Lres.addCors
  by_cases h1 : env.corsHeaders = "" <;> by_cases h2 : env.corsMethods = "" <;>
    by_cases h3 : env.corsOrigins = "" <;>
      simp [h1, h2, h3, lookupL_setL_self,
        lookupL_setL_other _ _ _ _ hOH, lookupL_setL_other _ _ _ _ hOM]

theorem corsSpec_addCors (env : CorsEnv) (pre base : List (String × String))
    (e1 : lookupL pre CORSHeadersHeaderKey = lookupL base CORSHeadersHeaderKey)
    (e2 : lookupL pre CORSMethodsHeaderKey = lookupL base CORSMethodsHeaderKey)
    (e3 : lookupL pre CORSOriginHeaderKey = lookupL base CORSOriginHeaderKey) :
    corsSpec env base (Lres.addCors env pre) := by
  refine ⟨fun h => ?_, fun h => ?_, fun h => ?_, fun h => ?_, fun h => ?_, fun h => ?_⟩
  · rw [lookupL_addCors_headersKey, if_neg h]
  · rw [lookupL_addCors_headersKey, if_pos h, e1]
  · rw [lookupL_addCors_methodsKey, if_neg h]
  · rw [lookupL_addCors_methodsKey, if_pos h, e2]
  · rw [lookupL_addCors_originKey, if_neg h]
  · rw [lookupL_addCors_originKey, if_pos h, e3]

theorem corsSpec_addCors_setCT (env : CorsEnv) (base : List (String × String)) (ct : String) :
    corsSpec env base (Lres.addCors env (setL base ContentTypeKey ct)) := by
  refine corsSpec_addCors env _ base ?_ ?_ ?_ <;>
    exact lookupL_setL_other _ _ _ _ (by decide)

end Lemmas

/-- C1 counterexample: at status 200 with nil headers and an
unserializable value, Custom does return status 500, but its body is
the fixed literal keyed with code, not the status/message error wire
format the claim asserts. -/
theorem c1_counterexample :
    (Lres.Custom ⟨"", "", ""⟩ 200 none .unjsonable).1.StatusCode = 500 ∧
    (Lres.Custom ⟨"", "", ""⟩ 200 none .unjsonable).1.Body =
      "\x7b\"code\":500,\"message\":\"the server has encountered an unexpected error\"\x7d" ∧
    (Lres.Custom ⟨"", "", ""⟩ 200 none .unjsonable).1.Body ≠
      "\x7b\"status\":500,\"message\":\"the server has encountered an unexpected error\"\x7d" := by
  exact ⟨rfl, rfl, by decide⟩

/-- C1 (amended): for every status, headers map and data value whose JSON
serialization fails, Custom returns a nil error and a response with
status code 500 and body equal to the fixed generic literal
keyed code/message, regardless of the requested status. -/
theorem c1_theorem (env : CorsEnv) (httpStatus : Int) (headers : Option (List (String × String))) (data : GoValue)
    (h : jsonMarshal data = none) :
    (Lres.Custom env httpStatus headers data).1.StatusCode = 500 ∧
    (Lres.Custom env httpStatus headers data).1.Body =
      "\x7b\"code\":500,\"message\":\"the server has encountered an unexpected error\"\x7d" ∧
    (Lres.Custom env httpStatus headers data).2 = none := by
  cases data with
  | jsonable s => simp [jsonMarshal] at h
  | unjsonable => exact ⟨rfl, rfl, rfl⟩

/-- C1 witness: the amended theorem applied at a concrete failing value. -/
theorem c1_witness :
    jsonMarshal .unjsonable = none ∧
    (Lres.Custom ⟨"*", "*", "*"⟩ 418 none .unjsonable).1.StatusCode = 500 := by
  exact ⟨rfl, ( c1_theorem ⟨"*", "*", "*"⟩ 418 none .unjsonable rfl).1⟩

/-- Helper: the detail-suppression conditional shared by Error and
StatusAndError keeps the status and replaces the message exactly when
the status is at least 500 and the flag is false. -/
theorem hideIte_spec (expose : Bool) (h0 : HTTPError) :
    (if 500 ≤ h0.Status ∧ expose = false then { h0 with Message := statusText h0.Status } else h0).Status = h0.Status ∧
    ((500 ≤ h0.Status ∧ expose = false) →
      (if 500 ≤ h0.Status ∧ expose = false then { h0 with Message := statusText h0.Status } else h0).Message = statusText h0.Status) ∧
    (¬(500 ≤ h0.Status ∧ expose = false) →
      (if 500 ≤ h0.Status ∧ expose = false then { h0 with Message := statusText h0.Status } else h0).Message = h0.Message) := by
  refine ⟨?_, fun h => ?_, fun h => ?_⟩
  · split <;> rfl
  · rw [if_pos h]
  · rw [if_neg h]

theorem goErrMessage_errAs (err : GoError) : (Lres.errAsHTTPError err).Message = goErrMessage err := by
  cases err <;> rfl

/-- C2: for every error converted by Error or StatusAndError, when the
resolved status is at least 500 and ExposeServerErrors is false the
stored message is the standard reason phrase of that status, and
otherwise (any status below 500, or the flag true) the message is the
original error message verbatim; the response carries exactly that
resolved status and its body is the JSON rendering of the resolved
status/message pair. -/
theorem c2_theorem (expose : Bool) (env : CorsEnv) (err : GoError) (httpStatus : Int) :
    ((500 ≤ (Lres.resolveError expose err).Status ∧ expose = false) →
      (Lres.resolveError expose err).Message = statusText (Lres.resolveError expose err).Status) ∧
    (((Lres.resolveError expose err).Status < 500 ∨ expose = true) →
      (Lres.resolveError expose err).Message = goErrMessage err) ∧
    (Lres.Error expose env err).1.StatusCode = (Lres.resolveError expose err).Status ∧
    (Lres.Error expose env err).1.Body = marshalHTTPError (Lres.resolveError expose err) ∧
    ((500 ≤ (Lres.resolveStatusAndError expose httpStatus err).Status ∧ expose = false) →
      (Lres.resolveStatusAndError expose httpStatus err).Message =
        statusText (Lres.resolveStatusAndError expose httpStatus err).Status) ∧
    (((Lres.resolveStatusAndError expose httpStatus err).Status < 500 ∨ expose = true) →
      (Lres.resolveStatusAndError expose httpStatus err).Message = errString err) ∧
    (Lres.resolveStatusAndError expose httpStatus err).Status = httpStatus ∧
    (Lres.StatusAndError expose env httpStatus err).1.StatusCode = httpStatus ∧
    (Lres.StatusAndError expose env httpStatus err).1.Body =
      marshalHTTPError (Lres.resolveStatusAndError expose httpStatus err) := by
  have hrE : Lres.resolveError expose err =
      (if 500 ≤ (Lres.errAsHTTPError err).Status ∧ expose = false
        then { Lres.errAsHTTPError err with Message := statusText (Lres.errAsHTTPError err).Status }
        else Lres.errAsHTTPError err) := rfl
  have hrS : Lres.resolveStatusAndError expose httpStatus err =
      (if 500 ≤ (⟨httpStatus, errString err⟩ : HTTPError).Status ∧ expose = false
        then { (⟨httpStatus, errString err⟩ : HTTPError) with
                 Message := statusText (⟨httpStatus, errString err⟩ : HTTPError).Status }
        else (⟨httpStatus, errString err⟩ : HTTPError)) := rfl
  have specE := hideIte_spec expose (Lres.errAsHTTPError err)
  have specS := hideIte_spec expose (⟨httpStatus, errString err⟩ : HTTPError)
  refine ⟨fun h => ?_, fun h => ?_, rfl, rfl, fun h => ?_, fun h => ?_, ?_, ?_, rfl⟩
  · rw [hrE] at h ⊢
    rw [specE.1] at h ⊢
    exact specE.2.1 h
  · rw [hrE] at h ⊢
    rw [specE.1] at h
    have hc : ¬(500 ≤ (Lres.errAsHTTPError err).Status ∧ expose = false) := by
      rintro ⟨ha, hb⟩
      rcases h with h | h
      · omega
      · rw [h] at hb
        simp at hb
    rw [specE.2.2 hc, goErrMessage_errAs]
  · rw [hrS] at h ⊢
    rw [specS.1] at h ⊢
    exact specS.2.1 h
  · rw [hrS] at h ⊢
    rw [specS.1] at h
    have hc : ¬(500 ≤ (⟨httpStatus, errString err⟩ : HTTPError).Status ∧ expose = false) := by
      rintro ⟨ha, hb⟩
      have ha2 : (500 : Int) ≤ httpStatus := ha
      rcases h with h | h
      · have h2 : httpStatus < 500 := h
        omega
      · rw [h] at hb
        simp at hb
    exact specS.2.2 hc
  · rw [hrS]
    exact specS.1
  · show (Lres.resolveStatusAndError expose httpStatus err).Status = httpStatus
    rw [hrS]
    exact specS.1

/-- C7: every Response Builder variant passes its headers through addCors:
for each of the three CORS environment values that is non-empty at build
time the corresponding Access-Control-Allow header holds exactly that
value, overwriting anything the caller put there, and each empty value
leaves the lookup for its header name exactly as in the callers map. -/
theorem c7_theorem (env : CorsEnv) (expose : Bool) (httpStatus : Int)
    (hs : Option (List (String × String))) (data : GoValue) (err : GoError)
    (contentType : String) (fileBytes : List UInt8) :
    corsSpec env (hs.getD []) (Lres.Custom env httpStatus hs data).1.Headers ∧
    corsSpec env [] (Lres.Success env data).1.Headers ∧
    corsSpec env [] (Lres.Error expose env err).1.Headers ∧
    corsSpec env [] (Lres.StatusAndError expose env httpStatus err).1.Headers ∧
    corsSpec env (hs.getD []) (Lres.File env contentType hs fileBytes).1.Headers ∧
    corsSpec env (hs.getD []) (Lres.FileB64 env contentType hs fileBytes).1.Headers ∧
    corsSpec env [] (Lres.Empty env).1.Headers := by
  refine ⟨?_, ?_, ?_, ?_, ?_, ?_, ?_⟩
  · cases hs with
    | none => exact corsSpec_addCors_setCT env [] _
    | some m => exact corsSpec_addCors_setCT env m _
  · exact corsSpec_addCors_setCT env [] _
  · exact corsSpec_addCors_setCT env [] _
  · exact corsSpec_addCors_setCT env [] _
  · cases hs with
    | none => exact corsSpec_addCors_setCT env [] _
    | some m => exact corsSpec_addCors_setCT env m _
  · cases hs with
    | none => exact corsSpec_addCors_setCT env [] _
    | some m => exact corsSpec_addCors_setCT env m _
  · exact corsSpec_addCors_setCT env [] _

/-- C7 witness: with all three variables set to star the origin header of
an Empty response is star, and with all three empty the headers lookup
is untouched. -/
theorem c7_witness :
    ((⟨"*", "*", "*"⟩ : CorsEnv).corsOrigins ≠ "" ∧
      lookupL (Lres.Empty ⟨"*", "*", "*"⟩).1.Headers CORSOriginHeaderKey = some "*") ∧
    ((⟨"", "", ""⟩ : CorsEnv).corsHeaders = "" ∧
      lookupL (Lres.Empty ⟨"", "", ""⟩).1.Headers CORSHeadersHeaderKey =
        lookupL [] CORSHeadersHeaderKey) := by
  refine ⟨⟨by decide, ?_⟩, ⟨rfl, ?_⟩⟩
  · exact (( c7_theorem ⟨"*", "*", "*"⟩ true 200 none .unjsonable (.generic "x") "" []).2.2.2.2.2.2).2.2.2.2.1 (by decide)
  · exact (( c7_theorem ⟨"", "", ""⟩ true 200 none .unjsonable (.generic "x") "" []).2.2.2.2.2.2).2.1 rfl

/-- C10: the handler produced by AllowOptionsMW returns, for every request
and every HTTP method, status 200 with the empty JSON object body and a
nil error; it is a constant handler taking no next stage, so nothing
downstream can ever run, and both shipped copies agree. -/
theorem c10_theorem (env : CorsEnv) (ctx ctx2 : Ctx) (req req2 : Request) :
    (Lmw.AllowOptionsMW env ctx req).1.StatusCode = 200 ∧
    (Lmw.AllowOptionsMW env ctx req).1.Body = "\x7b\x7d" ∧
    (Lmw.AllowOptionsMW env ctx req).2 = none ∧
    Lmw.AllowOptionsMW env ctx req = Lmw.AllowOptionsMW env ctx2 req2 ∧
    LmwU.AllowOptionsMW env ctx req = Lmw.AllowOptionsMW env ctx req :=
  ⟨rfl, rfl, rfl, rfl, rfl⟩

/-- C3: on a request without an Authorization header both decode
middlewares return a terminal 400 response whose body message is the
fixed no-authorization-header text, with a nil error, and the result
does not depend on the next handler. -/
theorem c3_theorem (expose : Bool) (env : CorsEnv) (verify : String → Except (Int × GoError) MapClaims)
    (next : Handler) (ctx : Ctx) (req : Request)
    (h : lookupL req.Headers "Authorization" = none) :
    ((Lmw.DecodeStandardMW expose env verify next ctx req).1.StatusCode = 400 ∧
     (Lmw.DecodeStandardMW expose env verify next ctx req).1.Body =
       "\x7b\"status\":400,\"message\":\"no authorization header\"\x7d" ∧
     (Lmw.DecodeStandardMW expose env verify next ctx req).2 = none ∧
     ∀ next2 : Handler, Lmw.DecodeStandardMW expose env verify next2 ctx req =
       Lmw.DecodeStandardMW expose env verify next ctx req) ∧
    ((Lmw.DecodeExpandedMW expose env verify next ctx req).1.StatusCode = 400 ∧
     (Lmw.DecodeExpandedMW expose env verify next ctx req).1.Body =
       "\x7b\"status\":400,\"message\":\"no authorization header\"\x7d" ∧
     (Lmw.DecodeExpandedMW expose env verify next ctx req).2 = none ∧
     ∀ next2 : Handler, Lmw.DecodeExpandedMW expose env verify next2 ctx req =
       Lmw.DecodeExpandedMW expose env verify next ctx req) := by
  have hex : ExtractJWT verify req.Headers = .error (400, ErrNoAuthorizationHeader) := by
    unfold ExtractJWT
    rw [h]
  have hres : Lres.resolveStatusAndError expose 400 ErrNoAuthorizationHeader =
      { Status := 400, Message := "no authorization header" } := by
    simp only [Lres.resolveStatusAndError]
    split
    · next hcond =>
      exfalso
      have h5 : (500 : Int) ≤ 400 := hcond.1
      omega
    · rfl
  have hS : ∀ next2 : Handler, Lmw.DecodeStandardMW expose env verify next2 ctx req =
      Lres.StatusAndError expose env 400 ErrNoAuthorizationHeader := by
    intro next2
    unfold Lmw.DecodeStandardMW
    rw [hex]
  have hX : ∀ next2 : Handler, Lmw.DecodeExpandedMW expose env verify next2 ctx req =
      Lres.StatusAndError expose env 400 ErrNoAuthorizationHeader := by
    intro next2
    unfold Lmw.DecodeExpandedMW
    rw [hex]
  have hsc : (Lres.StatusAndError expose env 400 ErrNoAuthorizationHeader).1.StatusCode = 400 := by
    show (Lres.resolveStatusAndError expose 400 ErrNoAuthorizationHeader).Status = 400
    rw [hres]
  have hbd : (Lres.StatusAndError expose env 400 ErrNoAuthorizationHeader).1.Body =
      "\x7b\"status\":400,\"message\":\"no authorization header\"\x7d" := by
    show marshalHTTPError (Lres.resolveStatusAndError expose 400 ErrNoAuthorizationHeader) = _
    rw [hres]
    decide
  refine ⟨⟨?_, ?_, ?_, fun next2 => ?_⟩, ⟨?_, ?_, ?_, fun next2 => ?_⟩⟩
  · rw [hS next]; exact hsc
  · rw [hS next]; exact hbd
  · rw [hS next]; rfl
  · rw [hS next2, hS next]
  · rw [hX next]; exact hsc
  · rw [hX next]; exact hbd
  · rw [hX next]; rfl
  · rw [hX next2, hX next]

/-- C3 witness: the theorem applied to a concrete request with no headers
at all. -/
theorem c3_witness :
    lookupL ({} : Request).Headers "Authorization" = none ∧
    (Lmw.DecodeStandardMW true ⟨"", "", ""⟩ (fun _ => .error (401, .generic "invalid token"))
      (fun _ _ => (⟨200, [], [], "", false⟩, none)) [] {}).1.StatusCode = 400 := by
  exact ⟨rfl, ((c3_theorem true ⟨"", "", ""⟩ (fun _ => .error (401, .generic "invalid token"))
    (fun _ _ => (⟨200, [], [], "", false⟩, none)) [] {} rfl).1).1⟩

/-- C4 counterexample: on a request with a malformed body, the
InjectLambdaContextMW copy in src/lmw/lmw.go returns a 500 error
response instead of the 200 response the next handler would have
produced, so the middleware does not always swallow the unmarshal
error. -/
theorem c4_counterexample :
    (Lmw.InjectLambdaContextMW true ⟨"", "", ""⟩
        (fun _ _ => (⟨200, [], [], "", false⟩, none)) [] { Body := .malformed "not json" }).1.StatusCode = 500 ∧
    ((fun (_ : Ctx) (_ : Request) => ((⟨200, [], [], "", false⟩ : Response), (none : Option GoError)))
        [] { Body := .malformed "not json" }).1.StatusCode = 200 ∧
    Lmw.InjectLambdaContextMW true ⟨"", "", ""⟩
        (fun _ _ => (⟨200, [], [], "", false⟩, none)) [] { Body := .malformed "not json" } ≠
      (fun (_ : Ctx) (_ : Request) => ((⟨200, [], [], "", false⟩ : Response), (none : Option GoError)))
        [] { Body := .malformed "not json" } := by
  refine ⟨by decide, rfl, by decide⟩

/-- C4 (amended): the InjectLambdaContextMW copy in src/unnamed/part_000
always swallows the unmarshal error and invokes the next handler on the
augmented context, for every request including those whose body is
empty or malformed; the copy in src/lmw/lmw.go instead returns the
lres.Error response, independent of the next handler, whenever
unmarshalling the request into LambdaParams fails. -/
theorem c4_theorem (next : Handler) (ctx : Ctx) (req : Request) (expose : Bool) (env : CorsEnv) :
    LmwU.InjectLambdaContextMW next ctx req = next (LmwU.addToContext ctx (LmwU.injectVals req)) req ∧
    (∀ e : GoError, UnmarshalReq req = .error e →
      (Lmw.InjectLambdaContextMW expose env next ctx req = Lres.Error expose env e ∧
       ∀ next2 : Handler, Lmw.InjectLambdaContextMW expose env next2 ctx req =
         Lmw.InjectLambdaContextMW expose env next ctx req)) := by
  refine ⟨rfl, fun e he => ⟨?_, fun next2 => ?_⟩⟩
  · unfold Lmw.InjectLambdaContextMW
    rw [he]
  · unfold Lmw.InjectLambdaContextMW
    rw [he]

/-- C4 witness: the amended theorem applied at a concrete malformed
request. -/
theorem c4_witness :
    UnmarshalReq ({ Body := .malformed "x" } : Request) = .error (.generic "invalid character in request body") ∧
    Lmw.InjectLambdaContextMW true ⟨"", "", ""⟩
        (fun _ _ => (⟨200, [], [], "", false⟩, none)) [] ({ Body := .malformed "x" } : Request) =
      Lres.Error true ⟨"", "", ""⟩ (.generic "invalid character in request body") := by
  exact ⟨rfl, ((c4_theorem (fun _ _ => (⟨200, [], [], "", false⟩, none)) [] ({ Body := .malformed "x" } : Request)
    true ⟨"", "", ""⟩).2 _ rfl).1⟩

/-- C5 counterexample: when the next handler returns a 200 response
together with a non-nil error, the LogRequestMW copy in
src/unnamed/part_000 returns the response with its status overwritten
to 500, so it does not return the response of the next handler
unchanged. -/
theorem c5_counterexample :
    (LmwU.LogRequestMW (fun _ _ => (⟨200, [], [], "", false⟩, some (.generic "boom"))) [] {}).1.StatusCode = 500 ∧
    ((fun (_ : Ctx) (_ : Request) => ((⟨200, [], [], "", false⟩ : Response), some (GoError.generic "boom"))) [] {}).1.StatusCode = 200 ∧
    LmwU.LogRequestMW (fun _ _ => ((⟨200, [], [], "", false⟩ : Response), some (GoError.generic "boom"))) [] {} ≠
      (fun (_ : Ctx) (_ : Request) => ((⟨200, [], [], "", false⟩ : Response), some (GoError.generic "boom"))) [] {} := by
  refine ⟨by decide, rfl, by decide⟩

/-- C5 (amended): the LogRequestMW copy in src/lmw/lmw.go returns exactly
the response and error the next handler produced, unchanged in every
field; the copy in src/unnamed/part_000 returns them unchanged when the
error is nil, and otherwise returns the error unchanged with the
response status code overwritten to 500 and every other field
unchanged. -/
theorem c5_theorem (next : Handler) (ctx : Ctx) (req : Request) :
    Lmw.LogRequestMW next ctx req = next ctx req ∧
    LmwU.LogRequestMW next ctx req =
      (match (next ctx req).2 with
        | some e => ({ (next ctx req).1 with StatusCode := 500 }, some e)
        | none => next ctx req) := by
  constructor
  · rfl
  · rcases hr : next ctx req with ⟨res, err⟩
    cases err with
    | none => simp [LmwU.LogRequestMW, hr]
    | some e => simp [LmwU.LogRequestMW, hr]

/-- C2 witness: the theorem applied at a concrete 500 error with the flag
off and at the same error with the flag on. -/
theorem c2_witness :
    ((500 ≤ (Lres.resolveError false (.generic "database down")).Status ∧ false = false) ∧
      (Lres.resolveError false (.generic "database down")).Message =
        statusText (Lres.resolveError false (.generic "database down")).Status) ∧
    (((Lres.resolveError true (.generic "database down")).Status < 500 ∨ true = true) ∧
      (Lres.resolveError true (.generic "database down")).Message = goErrMessage (.generic "database down")) := by
  refine ⟨⟨by decide, (c2_theorem false ⟨"", "", ""⟩ (.generic "database down") 500).1 (by decide)⟩,
          ⟨by decide, (c2_theorem true ⟨"", "", ""⟩ (.generic "database down") 500).2.1 (by decide)⟩⟩

theorem chooseLongestLoop_spec (xs : List String) (i0 : Nat) (bi bl : Int) :
    (Lcom.chooseLongestLoop xs i0 bi bl = (bi, bl) ∧ ∀ x ∈ xs, (goLen x : Int) ≤ bl) ∨
    (∃ j, j < xs.length ∧
      Lcom.chooseLongestLoop xs i0 bi bl = (((i0 + j : Nat) : Int), (goLen (xs.getD j "") : Int)) ∧
      bl < (goLen (xs.getD j "") : Int) ∧
      (∀ m, m < xs.length → (goLen (xs.getD m "") : Int) ≤ (goLen (xs.getD j "") : Int)) ∧
      (∀ m, m < j → (goLen (xs.getD m "") : Int) < (goLen (xs.getD j "") : Int))) := by
  induction xs generalizing i0 bi bl with
  | nil =>
    left
    exact ⟨rfl, by simp⟩
  | cons x rest ih =>
    by_cases hx : ((goLen x : Int) > bl)
    · have hstep : Lcom.chooseLongestLoop (x :: rest) i0 bi bl =
          Lcom.chooseLongestLoop rest (i0 + 1) (i0 : Int) (goLen x : Int) := by
        simp only [Lcom.chooseLongestLoop]
        rw [if_pos hx]
      rcases ih (i0 + 1) (i0 : Int) (goLen x : Int) with ⟨heq, hall⟩ | ⟨j, hj, heq, hgt, hmax, hpre⟩
      · right
        refine ⟨0, by simp, ?_, ?_, ?_, ?_⟩
        · rw [hstep, heq]
          simp
        · simpa using hx
        · intro m hm
          cases m with
          | zero => simp
          | succ m2 =>
            simp only [List.getD_cons_succ, List.getD_cons_zero]
            have hm2 : m2 < rest.length := by simpa using hm
            have hmem : rest.getD m2 "" ∈ rest := by
              rw [List.getD_eq_getElem rest "" hm2]
              exact List.getElem_mem hm2
            exact hall _ hmem
        · intro m hm
          simp at hm
      · right
        refine ⟨j + 1, by simpa using hj, ?_, ?_, ?_, ?_⟩
        · rw [hstep, heq]
          simp only [List.getD_cons_succ]
          congr 2
          omega
        · simp only [List.getD_cons_succ]
          exact lt_trans hx hgt
        · intro m hm
          cases m with
          | zero =>
            simp only [List.getD_cons_succ, List.getD_cons_zero]
            exact le_of_lt hgt
          | succ m2 =>
            simp only [List.getD_cons_succ]
            exact hmax m2 (by simpa using hm)
        · intro m hm
          cases m with
          | zero =>
            simp only [List.getD_cons_succ, List.getD_cons_zero]
            exact hgt
          | succ m2 =>
            simp only [List.getD_cons_succ]
            exact hpre m2 (by omega)
    · have hstep : Lcom.chooseLongestLoop (x :: rest) i0 bi bl =
          Lcom.chooseLongestLoop rest (i0 + 1) bi bl := by
        simp only [Lcom.chooseLongestLoop]
        rw [if_neg hx]
      have hxle : (goLen x : Int) ≤ bl := not_lt.mp hx
      rcases ih (i0 + 1) bi bl with ⟨heq, hall⟩ | ⟨j, hj, heq, hgt, hmax, hpre⟩
      · left
        refine ⟨by rw [hstep, heq], ?_⟩
        intro y hy
        rcases List.mem_cons.mp hy with hy | hy
        · rw [hy]; exact hxle
        · exact hall y hy
      · right
        refine ⟨j + 1, by simpa using hj, ?_, ?_, ?_, ?_⟩
        · rw [hstep, heq]
          simp only [List.getD_cons_succ]
          congr 2
          omega
        · simp only [List.getD_cons_succ]
          exact hgt
        · intro m hm
          cases m with
          | zero =>
            simp only [List.getD_cons_succ, List.getD_cons_zero]
            exact le_of_lt (lt_of_le_of_lt hxle hgt)
          | succ m2 =>
            simp only [List.getD_cons_succ]
            exact hmax m2 (by simpa using hm)
        · intro m hm
          cases m with
          | zero =>
            simp only [List.getD_cons_succ, List.getD_cons_zero]
            exact lt_of_le_of_lt hxle hgt
          | succ m2 =>
            simp only [List.getD_cons_succ]
            exact hpre m2 (by omega)

/-- C6: on any non-empty candidate list chooseLongest returns a candidate
of greatest length, and among the longest candidates the one earliest in
argument order; in particular it picks 22 over 1 and the empty string,
and fghij over abc and de. -/
theorem c6_theorem (l : List String) (h : l ≠ []) :
    (∃ i, i < l.length ∧ Lcom.chooseLongest l = l.getD i "" ∧
      (∀ m, m < l.length → goLen (l.getD m "") ≤ goLen (l.getD i "")) ∧
      (∀ m, m < i → goLen (l.getD m "") < goLen (l.getD i ""))) ∧
    Lcom.chooseLongest ["1", "22", ""] = "22" ∧
    Lcom.chooseLongest ["abc", "de", "fghij"] = "fghij" := by
  refine ⟨?_, by decide, by decide⟩
  rcases chooseLongestLoop_spec l 0 (-1) (-1) with ⟨heq, hall⟩ | ⟨j, hj, heq, hgt, hmax, hpre⟩
  · exfalso
    rcases l with _ | ⟨x, rest⟩
    · exact h rfl
    · have h1 := hall x (by simp)
      have h2 : (0 : Int) ≤ (goLen x : Int) := Int.natCast_nonneg _
      omega
  · refine ⟨j, hj, ?_, ?_, ?_⟩
    · have hlen : ¬(l.length < 1) := by omega
      unfold Lcom.chooseLongest
      rw [if_neg hlen, heq]
      simp
    · intro m hm
      have := hmax m hm
      exact_mod_cast this
    · intro m hm
      have := hpre m hm
      exact_mod_cast this

/-- C6 witness: the theorem applied to the two concrete candidate lists
from the claim. -/
theorem c6_witness :
    (["1", "22", ""] : List String) ≠ [] ∧
    Lcom.chooseLongest ["1", "22", ""] = "22" ∧
    Lcom.chooseLongest ["abc", "de", "fghij"] = "fghij" :=
  ⟨by decide, ( c6_theorem ["1", "22", ""] (by decide)).2⟩

theorem lookupL_eq_none_of_not_mem {α : Type} (m : List (String × α)) (k : String)
    (h : k ∉ keysL m) : lookupL m k = none := by
  induction m with
  | nil => rfl
  | cons p rest ih =>
    obtain ⟨k0, v0⟩ := p
    simp only [keysL, List.map_cons, List.mem_cons] at h
    push_neg at h
    simp only [lookupL]
    rw [if_neg (fun hh => h.1 hh.symm)]
    exact ih h.2

theorem keysL_convertMap_sub (m : List (String × List String)) (k : String)
    (h : k ∈ keysL (Lrouter.convertMap m)) : k ∈ keysL m := by
  induction m with
  | nil => simp [Lrouter.convertMap, keysL] at h
  | cons p rest ih =>
    obtain ⟨k0, vs⟩ := p
    by_cases hl : vs.length = 1
    · simp only [Lrouter.convertMap, if_pos hl, keysL, List.map_cons, List.mem_cons] at h ⊢
      rcases h with h | h
      · exact .inl h
      · exact .inr (ih h)
    · simp only [Lrouter.convertMap, if_neg hl, keysL, List.map_cons, List.mem_cons] at h ⊢
      exact .inr (ih h)

theorem convertMap_lookup (m : List (String × List String)) (hnd : (keysL m).Nodup) (k : String) :
    lookupL (Lrouter.convertMap m) k =
      (match lookupL m k with
        | some vs => if vs.length = 1 then some (vs.getD 0 "") else none
        | none => none) := by
  induction m with
  | nil => rfl
  | cons p rest ih =>
    obtain ⟨k0, vs⟩ := p
    simp only [keysL, List.map_cons, List.nodup_cons] at hnd
    have hnd2 : (keysL rest).Nodup := hnd.2
    have hk0 : k0 ∉ keysL rest := hnd.1
    by_cases hek : k0 = k
    · subst hek
      by_cases hl : vs.length = 1
      · simp [Lrouter.convertMap, hl, lookupL]
      · have hnone : lookupL (Lrouter.convertMap rest) k0 = none :=
          lookupL_eq_none_of_not_mem _ _ (fun hc => hk0 (keysL_convertMap_sub _ _ hc))
        simp [Lrouter.convertMap, hl, lookupL, hnone]
    · by_cases hl : vs.length = 1
      · simp [Lrouter.convertMap, hl, lookupL, hek, ih hnd2]
      · simp [Lrouter.convertMap, hl, lookupL, hek, ih hnd2]

/-- C8: when the native multi-valued map has no duplicate keys, the
single-value map produced by convertMap binds a key exactly when that
key has exactly one value, to that value; and the gateway event built by
ServeHTTP carries the multi-value maps through unchanged while its
single-value maps come from convertMap. -/
theorem c8_theorem (m : List (String × List String)) (r : Lrouter.HttpRequest) (k : String)
    (hnd : (keysL m).Nodup) :
    lookupL (Lrouter.convertMap m) k =
      (match lookupL m k with
        | some vs => if vs.length = 1 then some (vs.getD 0 "") else none
        | none => none) ∧
    (Lrouter.serveHTTPEvent r).MultiValueHeaders = r.headers ∧
    (Lrouter.serveHTTPEvent r).MultiValueQueryStringParameters = r.query ∧
    (Lrouter.serveHTTPEvent r).Headers = Lrouter.convertMap r.headers ∧
    (Lrouter.serveHTTPEvent r).QueryStringParameters = Lrouter.convertMap r.query :=
  ⟨convertMap_lookup m hnd k, rfl, rfl, rfl, rfl⟩

/-- C8 witness: a key with two values is dropped from the single-value
map, a key with one value is kept. -/
theorem c8_witness :
    (keysL [("a", ["1"]), ("b", ["1", "2"]), ("c", ([] : List String))]).Nodup ∧
    lookupL (Lrouter.convertMap [("a", ["1"]), ("b", ["1", "2"]), ("c", [])]) "b" = none ∧
    lookupL (Lrouter.convertMap [("a", ["1"]), ("b", ["1", "2"]), ("c", [])]) "a" = some "1" := by
  refine ⟨by decide, ?_, ?_⟩
  · exact (c8_theorem [("a", ["1"]), ("b", ["1", "2"]), ("c", [])] {} "b" (by decide)).1.trans (by decide)
  · exact (c8_theorem [("a", ["1"]), ("b", ["1", "2"]), ("c", [])] {} "a" (by decide)).1.trans (by decide)

theorem lookup_withValue (ctx : Ctx) (k0 : String) (v0 : CtxVal) (k : String) (v : CtxVal)
    (h : lookupCtx (withValue ctx k0 v0) k = some v) :
    (k0 = k ∧ v = v0) ∨ lookupCtx ctx k = some v := by
  by_cases hk : k0 = k
  · left
    refine ⟨hk, ?_⟩
    simp only [withValue, lookupCtx, lookupL, if_pos hk] at h
    exact (Option.some.inj h).symm
  · right
    simpa [withValue, lookupCtx, lookupL, hk] using h

theorem addToContext_lookup (vals : List (String × CtxVal)) (ctx : Ctx) (k : String) (v : CtxVal)
    (h : lookupCtx (LmwU.addToContext ctx vals) k = some v) :
    lookupCtx ctx k = some v ∨ ctxValOk v := by
  induction vals generalizing ctx with
  | nil => exact .inl h
  | cons p rest ih =>
    obtain ⟨k0, v0⟩ := p
    cases v0 with
    | vNil => exact ih ctx h
    | vStr s =>
      by_cases hs : s = ""
      · have hstep : LmwU.addToContext ctx ((k0, .vStr s) :: rest) = LmwU.addToContext ctx rest := by
          simp [LmwU.addToContext, hs]
        rw [hstep] at h
        exact ih ctx h
      · have hstep : LmwU.addToContext ctx ((k0, .vStr s) :: rest) =
            LmwU.addToContext (withValue ctx k0 (.vStr s)) rest := by
          simp [LmwU.addToContext, hs]
        rw [hstep] at h
        rcases ih _ h with h2 | h2
        · rcases lookup_withValue _ _ _ _ _ h2 with ⟨hk, hv⟩ | h3
          · right
            subst hv
            exact ⟨by simp, fun s2 hs2 => by cases hs2; exact hs⟩
          · exact .inl h3
        · exact .inr h2
    | vInt n =>
      have hstep : LmwU.addToContext ctx ((k0, .vInt n) :: rest) =
          LmwU.addToContext (withValue ctx k0 (.vInt n)) rest := rfl
      rw [hstep] at h
      rcases ih _ h with h2 | h2
      · rcases lookup_withValue _ _ _ _ _ h2 with ⟨hk, hv⟩ | h3
        · right
          subst hv
          exact ⟨by simp, fun s2 hs2 => by simp at hs2⟩
        · exact .inl h3
      · exact .inr h2
    | vStrMap mm =>
      have hstep : LmwU.addToContext ctx ((k0, .vStrMap mm) :: rest) =
          LmwU.addToContext (withValue ctx k0 (.vStrMap mm)) rest := rfl
      rw [hstep] at h
      rcases ih _ h with h2 | h2
      · rcases lookup_withValue _ _ _ _ _ h2 with ⟨hk, hv⟩ | h3
        · right
          subst hv
          exact ⟨by simp, fun s2 hs2 => by simp at hs2⟩
        · exact .inl h3
      · exact .inr h2
    | vMultiMap mm =>
      have hstep : LmwU.addToContext ctx ((k0, .vMultiMap mm) :: rest) =
          LmwU.addToContext (withValue ctx k0 (.vMultiMap mm)) rest := rfl
      rw [hstep] at h
      rcases ih _ h with h2 | h2
      · rcases lookup_withValue _ _ _ _ _ h2 with ⟨hk, hv⟩ | h3
        · right
          subst hv
          exact ⟨by simp, fun s2 hs2 => by simp at hs2⟩
        · exact .inl h3
      · exact .inr h2

/-- C9 counterexample: the InjectLambdaContextMW copy in src/lmw/lmw.go
stores empty strings: on a request carrying an empty JSON object and no
path or query parameters, the resolved user id is the empty string and
is nevertheless bound under the user-id context key, so a next handler
that reads that key observes a stored empty string, not absence. -/
theorem c9_counterexample :
    (Lmw.InjectLambdaContextMW true ⟨"", "", ""⟩
      (fun ctx _ => (⟨200, [], [],
          (match lookupCtx ctx LambdaContextUserIDKey with
            | some (.vStr s) => "stored:" ++ s
            | _ => "absent"), false⟩, none))
      [] { Body := .jsonFields [] }).1.Body = "stored:" := by
  decide

/-- C9 (amended): the invariant holds for the addToContext path of
src/unnamed/part_000 — every value observable in the context it
produces is either a value already present before injection or a
present, non-empty value, since addToContext never stores a nil value
or an empty string — but the InjectLambdaContextMW copy in
src/lmw/lmw.go binds all nine keys unconditionally, in particular the
user-id key to whatever string GetUserID resolves, empty or not. -/
theorem c9_theorem (ctx : Ctx) (vals : List (String × CtxVal)) (req : Request) (k : String) (v : CtxVal)
    (expose : Bool) (env : CorsEnv) :
    (lookupCtx (LmwU.addToContext ctx vals) k = some v →
      lookupCtx ctx k = some v ∨ ctxValOk v) ∧
    (∀ next : Handler, LmwU.InjectLambdaContextMW next ctx req =
      next (LmwU.addToContext ctx (LmwU.injectVals req)) req) ∧
    (lookupCtx (LmwU.addToContext ctx (LmwU.injectVals req)) k = some v →
      lookupCtx ctx k = some v ∨ ctxValOk v) ∧
    (∀ lp : Lcom.LambdaParams, UnmarshalReq req = .ok lp →
      ∃ ctx2 : Ctx,
        (∀ next : Handler, Lmw.InjectLambdaContextMW expose env next ctx req = next ctx2 req) ∧
        lookupCtx ctx2 LambdaContextUserIDKey = some (.vStr (Lcom.GetUserID lp))) := by
  refine ⟨addToContext_lookup vals ctx k v, fun _ => rfl,
    addToContext_lookup (LmwU.injectVals req) ctx k v, fun lp hlp => ?_⟩
  refine ⟨withValue (withValue (withValue (withValue (withValue (withValue (withValue (withValue (withValue ctx
      LambdaContextIDKey (.vStr (Lcom.GetID lp)))
      LambdaContextMethodKey (.vStr req.HTTPMethod))
      LambdaContextMultiParamsKey (.vMultiMap req.MultiValueQueryStringParameters))
      LambdaContextPathKey (.vStr req.Path))
      LambdaContextPathParamsKey (.vStrMap req.PathParameters))
      LambdaContextQueryParamsKey (.vStrMap req.QueryStringParameters))
      LambdaContextRequestIDKey (.vStr req.RequestContext.RequestID))
      LambdaContextUserIDKey (.vStr (Lcom.GetUserID lp)))
      LambdaContextUserTypeKey (.vStr (Lcom.GetUserType lp)), fun next => ?_, ?_⟩
  · unfold Lmw.InjectLambdaContextMW
    rw [hlp]
  · simp [withValue, lookupCtx, lookupL]
    intro h
    exact absurd h (by decide)

/-- C9 witness: the amended theorem applied at a concrete injection of
one non-empty string value into the empty context, and at a concrete
request on which the src/lmw/lmw.go copy binds the user-id key to the
empty string. -/
theorem c9_witness :
    lookupCtx (LmwU.addToContext [] [("a", CtxVal.vStr "x")]) "a" = some (.vStr "x") ∧
    (lookupCtx ([] : Ctx) "a" = some (.vStr "x") ∨ ctxValOk (.vStr "x")) ∧
    (∃ ctx2 : Ctx,
      (∀ next : Handler, Lmw.InjectLambdaContextMW true ⟨"", "", ""⟩ next []
          ({ Body := .jsonFields [] } : Request) = next ctx2 ({ Body := .jsonFields [] } : Request)) ∧
      lookupCtx ctx2 LambdaContextUserIDKey = some (.vStr (Lcom.GetUserID ({} : Lcom.LambdaParams)))) := by
  refine ⟨by decide,
    (c9_theorem [] [("a", CtxVal.vStr "x")] {} "a" (.vStr "x") true ⟨"", "", ""⟩).1 (by decide),
    (c9_theorem [] [] ({ Body := .jsonFields [] } : Request) "a" (.vStr "x") true ⟨"", "", ""⟩).2.2.2
      ({} : Lcom.LambdaParams) rfl⟩

end LJR
